import Mathlib

/-!
Verification development for the BinFHE context layer
(`src/binfhe/lib/binfhecontext.cpp` of the OpenFHE excerpt).

The C++ methods of `BinFHEContext` are shallowly embedded as executable
Lean functions.  Machine integers (`uint32_t`, `NativeInteger`) are
modelled as `Nat` (all arithmetic involved stays far below any wrap-around
boundary: the largest constants are `2^35` inside 64-bit types).  C++
exceptions become `Except BinFHEError` results; for the state-mutating
`BTKeyGen` the error case carries the state as left behind at the throw
point, so atomicity questions can be stated.  Collaborators that live
outside the excerpt (`BinFHEScheme::KeyGen`, `LWEScheme::SwitchCTtoqn`,
`StdLatticeParm::FindRingDim`, the prime search `FirstPrime` /
`PreviousPrime`) are taken as function parameters: the embedded code is
exactly the control logic of `binfhecontext.cpp`, quantified over those
collaborators.
-/

/-- Error kinds of the spec's §7, as raised by `binfhecontext.cpp`
(`OPENFHE_THROW` calls, mapped to their spec names). -/
inductive BinFHEError where
  | UnsupportedMethod
  | UnsupportedProfile
  | ModulusOutOfRange
  | DimensionMismatch
  | InvalidModulus
  | FunctionRangeError
deriving DecidableEq

/-- The bootstrapping-method tag (`BINFHE_METHOD`); `binfhecontext.cpp`
only distinguishes `GINX` from everything else. -/
inductive BINFHE_METHOD where
  | AP
  | GINX
  | LMKCDEY
deriving DecidableEq

/-- Parameter-set names (`BINFHE_PARAMSET`); the security-profile entry
point only distinguishes `STD128` and `TOY` from the rest. -/
inductive BINFHE_PARAMSET where
  | TOY
  | MEDIUM
  | STD128
  | STD192
  | STD128Q
deriving DecidableEq

/-- An LWE ciphertext as seen by `binfhecontext.cpp`: only its recorded
length (dimension) and modulus are inspected (`GetLength`, `GetModulus`);
the payload is irrelevant to the control layer. -/
structure LWECiphertextE where
  length : Nat
  modulus : Nat
deriving DecidableEq

/-- `BinFHEContext::SwitchCTtoqn` (binfhecontext.cpp lines 279-292):
reads `N` and `Q` from the LWE parameters, throws when
`ct->GetLength() != N && ct->GetModulus() != Q` (the conjunction is
exactly what the source writes), and otherwise hands the ciphertext to
the LWE scheme's key switch, here the parameter `lweSwitch`. -/
def SwitchCTtoqn (N Q : Nat) (lweSwitch : LWECiphertextE → LWECiphertextE)
    (ct : LWECiphertextE) : Except BinFHEError LWECiphertextE :=
  if ct.length ≠ N ∧ ct.modulus ≠ Q then
    .error .DimensionMismatch
  else
    .ok (lweSwitch ct)

/-- The parameter fields produced by the security-profile entry point of
`BinFHEContext::GenerateBinFHEContext` that the claims observe: the two
shared parameter structs (`LWECryptoParams`, `RingGSWCryptoParams`) are
flattened to the scalar arguments the source passes to their
constructors.  `multiBase` is the final boolean constructor argument
`((logQ != 11) && timeOptimization)` that switches the multi-base
(gadget-power-map) optimization on. -/
structure BinFHEParamsE where
  n : Nat
  N : Nat
  q : Nat
  Q : Nat
  qKS : Nat
  baseKS : Nat
  baseG : Nat
  baseR : Nat
  multiBase : Bool
deriving DecidableEq

/-- `BinFHEContext::GenerateBinFHEContext(set, arbFunc, logQ, N, method,
timeOptimization)` (binfhecontext.cpp lines 51-112): the guard chain
(method, profile, `logQ` range), the `baseG`/`logQprime` range table, the
ring-dimension and prime search (delegated to the external collaborators
`findRingDim` — `StdLatticeParm::FindRingDim(HEStd_ternary, sl, logQprime)`
— and `primeQ logQprime m` — `PreviousPrime(FirstPrime(logQprime, m), m)`
with `m = 2*ringDim`), and the assembly of the parameter structs.  `Nmin`
is the caller's minimum ring dimension `N`. -/
def GenerateBinFHEContextSet (set : BINFHE_PARAMSET) (arbFunc : Bool)
    (logQ : Nat) (Nmin : Nat) (method : BINFHE_METHOD)
    (timeOptimization : Bool) (findRingDim : Nat → Nat)
    (primeQ : Nat → Nat → Nat) : Except BinFHEError BinFHEParamsE :=
  if method ≠ BINFHE_METHOD.GINX then .error .UnsupportedMethod
  else if set ≠ BINFHE_PARAMSET.STD128 ∧ set ≠ BINFHE_PARAMSET.TOY then
    .error .UnsupportedProfile
  else if 29 < logQ then .error .ModulusOutOfRange
  else if logQ < 11 then .error .ModulusOutOfRange
  else
    -- the C++ if/else chain assigns `baseG` and `logQprime` together; it
    -- is split here into one chain per variable, over the same conditions
    let baseG : Nat :=
      if 25 < logQ then 2 ^ 14
      else if 16 < logQ then 2 ^ 18
      else if 11 < logQ then 2 ^ 27
      else 2 ^ 5
    let logQprime : Nat :=
      if 25 < logQ then 54
      else if 16 < logQ then 54
      else if 11 < logQ then 54
      else 27
    let ringDim0 := findRingDim logQprime
    let ringDim := if ringDim0 ≤ Nmin then Nmin else ringDim0
    let Q := primeQ logQprime (2 * ringDim)
    let q := if arbFunc then ringDim else 2 * ringDim
    let n := if set = BINFHE_PARAMSET.TOY then 32 else 1305
    .ok { n := n, N := ringDim, q := q, Q := Q, qKS := 2 ^ 35,
          baseKS := 32, baseG := baseG, baseR := 23,
          multiBase := ((logQ != 11) && timeOptimization) }

/-- The spec's fixed gadget-base lookup table, written from the spec's
range wording for comparison against the source's selection chain:
`logQ>25 → 2^14`, `16<logQ≤25 → 2^18`, `11<logQ≤16 → 2^27`,
`logQ==11 → 2^5`. -/
def specBaseG (logQ : Nat) : Nat :=
  if 25 < logQ then 2 ^ 14
  else if 16 < logQ ∧ logQ ≤ 25 then 2 ^ 18
  else if 11 < logQ ∧ logQ ≤ 16 then 2 ^ 27
  else 2 ^ 5

/-- The spec's internal prime-search target: `logQ' = 27` when
`logQ == 11`, else `54`. -/
def specLogQprime (logQ : Nat) : Nat :=
  if logQ = 11 then 27 else 54

/-- A concrete stand-in for `StdLatticeParm::FindRingDim` used to
instantiate closed statements (the claims hold for every collaborator). -/
def stubRingDim : Nat → Nat := fun _ => 1024

/-- A concrete stand-in for the prime search
`PreviousPrime(FirstPrime(logQprime, m), m)` used to instantiate closed
statements. -/
def stubPrimeQ : Nat → Nat → Nat := fun _ _ => 134215681

/-- A bootstrapping key (`RingGSWBTKey`) as the control layer sees it:
either default-constructed (all shared pointers null, as produced by
`std::map::operator[]` on a missing key) or a key the scheme engine
generated; the payload is opaque, so a generated key is identified by an
abstract tag. -/
inductive RingGSWBTKey where
  | nullKey
  | genKey (tag : Nat)
deriving DecidableEq

/-- `std::map` lookup (`find`): first entry with the given key, if any. -/
def mapFind? {α : Type} (m : List (Nat × α)) (k : Nat) : Option α :=
  match m with
  | [] => none
  | e :: rest => if e.1 = k then some e.2 else mapFind? rest k

/-- `std::map` insert-or-assign (`operator[] =`): replaces the entry for
the key if present, otherwise adds one. -/
def mapInsert {α : Type} (m : List (Nat × α)) (k : Nat) (v : α) :
    List (Nat × α) :=
  match m with
  | [] => [(k, v)]
  | e :: rest => if e.1 = k then (k, v) :: rest else e :: mapInsert rest k v

/-- The mutable state of `BinFHEContext` touched by `BTKeyGen`: the
RingGSW parameters' current gadget base (`GetBaseG` / `Change_BaseG`),
the bootstrapping-key map `m_BTKey_map`, and the active key `m_BTKey`. -/
structure CtxState where
  baseG : Nat
  btKeyMap : List (Nat × RingGSWBTKey)
  btKey : RingGSWBTKey
deriving DecidableEq

/-- The time-optimization sweep inside `BinFHEContext::BTKeyGen`
(binfhecontext.cpp lines 350-355): for each gadget base in the
parameters' gadget-power map, change the active base to it, run the
scheme's key generation (`kg`, applied to the now-current base), and
store the result in the key map.  An exception from `kg` propagates with
the state exactly as mutated so far (`.error` carries that state). -/
def btSweep (kg : Nat → Except Unit RingGSWBTKey) :
    List Nat → CtxState → Except CtxState CtxState
  | [], s => .ok s
  | b :: rest, s =>
    let s1 : CtxState := { s with baseG := b }
    match kg b with
    | .error _ => .error s1
    | .ok k => btSweep kg rest { s1 with btKeyMap := mapInsert s1.btKeyMap b k }

/-- `BinFHEContext::BTKeyGen(sk, keygenMode)` (binfhecontext.cpp lines
344-366).  `gp` is the key set of the parameters' gadget-power map
(`GetGPowerMap`, an ordered `std::map`); `kg b` is the collaborator call
`m_binfhescheme->KeyGen(m_params, sk, keygenMode)` with the parameters'
gadget base currently `b` (the private key and mode are fixed inside
`kg`).  With time-optimization the sweep runs and the base is restored
afterwards; then, exactly as in the source, a non-empty map makes
`m_BTKey = m_BTKey_map[temp]` (where `operator[]` default-constructs a
missing entry), and an empty map makes a single fresh key under the
active base. -/
def BTKeyGen (timeOpt : Bool) (gp : List Nat)
    (kg : Nat → Except Unit RingGSWBTKey) (s : CtxState) :
    Except CtxState CtxState :=
  let temp := s.baseG
  let sweep : Except CtxState CtxState :=
    if timeOpt then
      match btSweep kg gp s with
      | .error sErr => .error sErr
      | .ok s1 => .ok { s1 with baseG := temp }
    else .ok s
  match sweep with
  | .error sErr => .error sErr
  | .ok s2 =>
    if s2.btKeyMap.length ≠ 0 then
      match mapFind? s2.btKeyMap temp with
      | some v => .ok { s2 with btKey := v }
      | none =>
        .ok { s2 with btKey := RingGSWBTKey.nullKey,
                      btKeyMap := mapInsert s2.btKeyMap temp
                        RingGSWBTKey.nullKey }
    else
      match kg s2.baseG with
      | .error _ => .error s2
      | .ok k =>
        .ok { s2 with btKey := k, btKeyMap := mapInsert s2.btKeyMap temp k }

/-- The power-of-two test of `GenerateLUTviaFunction`.  The source
computes `ceil(log2(p)) != floor(log2(p))` in double precision; for the
moduli that can reach this code (`0 < p`, `p ≤ q`, far below `2^46`) that
test holds exactly when `p` is not a power of two, which is what is
embedded here. -/
def isPow2 (p : Nat) : Bool :=
  (List.range (p + 1)).any (fun k => p == 2 ^ k)

/-- The generation loop of `GenerateLUTviaFunction` (binfhecontext.cpp
lines 453-460) over a list of indices `i`: each entry is
`f (i / interval) p * interval`, and the first sample with
`f (i / interval) p ≥ p` raises `FunctionRangeError`. -/
def lutEntries (f : Nat → Nat → Nat) (p interval : Nat) :
    List Nat → Except BinFHEError (List Nat)
  | [] => .ok []
  | i :: rest =>
    let temp := f (i / interval) p
    if p ≤ temp then .error .FunctionRangeError
    else
      match lutEntries f p interval rest with
      | .error e => .error e
      | .ok v => .ok (temp * interval :: v)

/-- `BinFHEContext::GenerateLUTviaFunction(f, p)` (binfhecontext.cpp
lines 441-463): rejects a non-power-of-two `p` with `InvalidModulus`,
then builds the table of size `q` (the LWE parameters' ciphertext-domain
modulus, here the parameter `q`) with `interval = outerval = q / p`. -/
def GenerateLUTviaFunction (q : Nat) (f : Nat → Nat → Nat) (p : Nat) :
    Except BinFHEError (List Nat) :=
  if isPow2 p then lutEntries f p (q / p) (List.range q)
  else .error .InvalidModulus

/-- The parts of a `BinFHEContext` relevant to evaluation calls: the
resolved parameters `m_params` plus the bootstrapping-key state
(`m_BTKey`, `m_BTKey_map`). -/
structure BinFHEContextE where
  params : BinFHEParamsE
  btKey : RingGSWBTKey
  btKeyMap : List (Nat × RingGSWBTKey)

/-- `BinFHEContext::EvalNOT(ct)` (binfhecontext.cpp lines 406-408): the
call `m_binfhescheme->EvalNOT(m_params, ct)` — the scheme collaborator
`schemeEvalNOT` receives only the parameters and the ciphertext. -/
def EvalNOT (schemeEvalNOT : BinFHEParamsE → LWECiphertextE → LWECiphertextE)
    (c : BinFHEContextE) (ct : LWECiphertextE) : LWECiphertextE :=
  schemeEvalNOT c.params ct

/-- The scheme key generation used in the C5 counterexample: it succeeds
under gadget base `8` and throws under every other base. -/
def kgMid : Nat → Except Unit RingGSWBTKey :=
  fun b => if b = 8 then .ok (RingGSWBTKey.genKey 8) else .error ()

/-- The starting context state of the C5 counterexample: active base 32,
empty key map. -/
def sMid : CtxState :=
  ⟨32, [], RingGSWBTKey.nullKey⟩

/-- The concrete LUT function (`m mod 4`) used in closed instances of the
C6 and C7 statements. -/
def lutF : Nat → Nat → Nat := fun m _ => m % 4

/-- C1: the spec demands that `SwitchCTtoqn` fail with `DimensionMismatch`
whenever the ciphertext's dimension is not `N` (regardless of its
modulus).  The source's guard is the conjunction
`(GetLength() != N) && (GetModulus() != Q)`, so a ciphertext whose
dimension is `32 ≠ N = 1024` but whose modulus equals `Q` passes the
guard and is key-switched instead of rejected: evaluated here at that
failing input. -/
theorem switchCTtoqn_guard_misses_dimension_only_mismatch :
    (32 ≠ 1024) ∧
      SwitchCTtoqn 1024 557057 (fun c => c) ⟨32, 557057⟩ = .ok ⟨32, 557057⟩ :=
  ⟨by decide, rfl⟩

/-- C2 counterexample: the claim says multi-base optimization is enabled
for every security-profile call with `logQ ≠ 11`, but the source enables
it only when additionally `timeOptimization` is true: the call with
`logQ = 12` and `timeOptimization = false` yields parameters with the
multi-base flag off. -/
theorem multiBase_disabled_despite_logQ_ne_11 :
    (12 ≠ 11) ∧
      (GenerateBinFHEContextSet .STD128 false 12 0 .GINX false stubRingDim
            stubPrimeQ).map (fun pr => pr.multiBase)
        = .ok false :=
  ⟨by decide, rfl⟩

/-- C2 amended: for every supported profile and `logQ` in range, the
resulting parameters have the multi-base optimization enabled exactly
when `logQ ≠ 11` and the time-optimization flag is set. -/
theorem multiBase_iff_logQ_ne_11_and_timeOpt (set : BINFHE_PARAMSET)
    (arb : Bool) (logQ Nmin : Nat) (t : Bool) (f : Nat → Nat)
    (g : Nat → Nat → Nat) (hs : set = .STD128 ∨ set = .TOY)
    (h1 : 11 ≤ logQ) (h2 : logQ ≤ 29) :
    (GenerateBinFHEContextSet set arb logQ Nmin .GINX t f g).map
        (fun pr => pr.multiBase)
      = .ok ((logQ != 11) && t) := by
  rcases hs with rfl | rfl <;>
    · simp only [GenerateBinFHEContextSet]
      rw [if_neg (by simp), if_neg (by simp), if_neg (by omega),
        if_neg (by omega)]
      rfl

/-- C2 witness: the amended claim evaluated at `logQ = 12` with
time-optimization on, where the multi-base flag comes out enabled. -/
theorem multiBase_iff_witness :
    (GenerateBinFHEContextSet .STD128 false 12 0 .GINX true stubRingDim
          stubPrimeQ).map (fun pr => pr.multiBase)
      = .ok true :=
  multiBase_iff_logQ_ne_11_and_timeOpt BINFHE_PARAMSET.STD128 false 12 0
    true stubRingDim stubPrimeQ (Or.inl rfl) (by decide) (by decide)

/-- C8: with a supported method and profile, security-profile resolution
succeeds for every `logQ` in `{11,…,29}` and fails with
`ModulusOutOfRange` for every `logQ` outside that range. -/
theorem genContextSet_logQ_range (set : BINFHE_PARAMSET) (arb : Bool)
    (logQ Nmin : Nat) (t : Bool) (f : Nat → Nat) (g : Nat → Nat → Nat)
    (hs : set = .STD128 ∨ set = .TOY) :
    (11 ≤ logQ → logQ ≤ 29 →
      ∃ pr, GenerateBinFHEContextSet set arb logQ Nmin .GINX t f g = .ok pr) ∧
    (logQ < 11 ∨ 29 < logQ →
      GenerateBinFHEContextSet set arb logQ Nmin .GINX t f g
        = .error .ModulusOutOfRange) := by
  constructor
  · intro h1 h2
    rcases hs with rfl | rfl <;>
      · simp only [GenerateBinFHEContextSet]
        rw [if_neg (by simp), if_neg (by simp), if_neg (by omega),
          if_neg (by omega)]
        exact ⟨_, rfl⟩
  · intro h
    rcases hs with rfl | rfl <;> rcases h with h | h <;>
      simp only [GenerateBinFHEContextSet] <;>
      first
        | rw [if_neg (by simp), if_neg (by simp), if_pos (by omega)]
        | rw [if_neg (by simp), if_neg (by simp), if_neg (by omega),
            if_pos (by omega)]

/-- C8 witness: resolution succeeds at `logQ = 11` and fails with
`ModulusOutOfRange` at `logQ = 30`, for concrete collaborators. -/
theorem genContextSet_logQ_range_witness :
    (∃ pr, GenerateBinFHEContextSet .STD128 false 11 0 .GINX false
        stubRingDim stubPrimeQ = .ok pr) ∧
      GenerateBinFHEContextSet .STD128 false 30 0 .GINX false stubRingDim
          stubPrimeQ
        = .error .ModulusOutOfRange :=
  ⟨(genContextSet_logQ_range BINFHE_PARAMSET.STD128 false 11 0 false
        stubRingDim stubPrimeQ (Or.inl rfl)).1 (by decide) (by decide),
    (genContextSet_logQ_range BINFHE_PARAMSET.STD128 false 30 0 false
        stubRingDim stubPrimeQ (Or.inl rfl)).2 (Or.inr (by decide))⟩

/-- C9: for every `logQ` in `{11,…,29}` the resolved gadget base follows
the spec's range table, the ring dimension is the collaborator's answer
at the spec's prime-search target `logQ'`, and the large modulus is the
prime search's answer at `logQ'` and twice that ring dimension (with no
caller minimum dimension). -/
theorem genContextSet_baseG_table (arb t : Bool) (logQ : Nat)
    (f : Nat → Nat) (g : Nat → Nat → Nat) (h1 : 11 ≤ logQ)
    (h2 : logQ ≤ 29) :
    (GenerateBinFHEContextSet .STD128 arb logQ 0 .GINX t f g).map
        (fun pr => (pr.baseG, pr.N, pr.Q))
      = .ok (specBaseG logQ, f (specLogQprime logQ),
          g (specLogQprime logQ) (2 * f (specLogQprime logQ))) := by
  have hz : ∀ x : Nat, (if x ≤ 0 then 0 else x) = x := by
    intro x
    split <;> omega
  simp only [GenerateBinFHEContextSet]
  rw [if_neg (by simp), if_neg (by simp), if_neg (by omega),
    if_neg (by omega)]
  by_cases h25 : 25 < logQ
  · simp only [if_pos h25, hz, specBaseG, specLogQprime,
      if_neg (show ¬logQ = 11 by omega), Except.map]
  · by_cases h16 : 16 < logQ
    · simp only [if_neg h25, if_pos h16, hz, specBaseG, specLogQprime,
        if_pos (show 16 < logQ ∧ logQ ≤ 25 by omega),
        if_neg (show ¬logQ = 11 by omega), Except.map]
    · by_cases h11 : 11 < logQ
      · simp only [if_neg h25, if_neg h16, if_pos h11, hz, specBaseG,
          specLogQprime,
          if_neg (show ¬(16 < logQ ∧ logQ ≤ 25) by omega),
          if_pos (show 11 < logQ ∧ logQ ≤ 16 by omega),
          if_neg (show ¬logQ = 11 by omega), Except.map]
      · have hq : logQ = 11 := by omega
        subst hq
        simp only [hz, specBaseG, specLogQprime, Except.map]
        rfl

/-- C9 witness: the table evaluated at `logQ = 20`, giving gadget base
`2^18` and prime-search target `54`. -/
theorem genContextSet_baseG_table_witness :
    (GenerateBinFHEContextSet .STD128 false 20 0 .GINX false stubRingDim
          stubPrimeQ).map (fun pr => (pr.baseG, pr.N, pr.Q))
      = .ok (2 ^ 18, 1024, 134215681) :=
  genContextSet_baseG_table false false 20 stubRingDim stubPrimeQ
    (by decide) (by decide)

theorem mapFind?_insert_self {α : Type} (m : List (Nat × α)) (k : Nat)
    (v : α) : mapFind? (mapInsert m k v) k = some v := by
  induction m with
  | nil => simp [mapInsert, mapFind?]
  | cons e rest ih =>
    by_cases h : e.1 = k
    · simp [mapInsert, mapFind?, h]
    · simp [mapInsert, mapFind?, h, ih]

theorem mapFind?_insert_ne {α : Type} (m : List (Nat × α)) (k : Nat)
    (v : α) (k' : Nat) (h : k' ≠ k) :
    mapFind? (mapInsert m k v) k' = mapFind? m k' := by
  have h' : k ≠ k' := fun hh => h hh.symm
  induction m with
  | nil => simp [mapInsert, mapFind?, h']
  | cons e rest ih =>
    by_cases he : e.1 = k
    · subst he
      simp [mapInsert, mapFind?, h']
    · simp [mapInsert, mapFind?, he, ih]

theorem mapInsert_length_new {α : Type} (m : List (Nat × α)) (k : Nat)
    (v : α) (h : mapFind? m k = none) :
    (mapInsert m k v).length = m.length + 1 := by
  induction m with
  | nil => simp [mapInsert]
  | cons e rest ih =>
    by_cases he : e.1 = k
    · simp [mapFind?, he] at h
    · simp only [mapFind?, if_neg he] at h
      simp [mapInsert, he, ih h]

theorem btSweep_ok (kf : Nat → RingGSWBTKey)
    (kg : Nat → Except Unit RingGSWBTKey) (hkg : ∀ b, kg b = .ok (kf b)) :
    ∀ (l : List Nat) (s : CtxState), ∃ s', btSweep kg l s = .ok s' ∧
      s'.btKey = s.btKey ∧
      ∀ b, mapFind? s'.btKeyMap b =
        (if b ∈ l then some (kf b) else mapFind? s.btKeyMap b) := by
  intro l
  induction l with
  | nil =>
    intro s
    exact ⟨s, rfl, rfl, by simp⟩
  | cons b0 rest ih =>
    intro s
    obtain ⟨s', hrun, hkey, hfind⟩ :=
      ih { s with baseG := b0, btKeyMap := mapInsert s.btKeyMap b0 (kf b0) }
    refine ⟨s', ?_, hkey, ?_⟩
    · simp only [btSweep, hkg b0]
      exact hrun
    · intro b
      rw [hfind b]
      by_cases hb : b ∈ rest
      · simp [hb]
      · simp only [if_neg hb]
        by_cases hbb : b = b0
        · subst hbb
          simp [mapFind?_insert_self]
        · rw [mapFind?_insert_ne _ _ _ _ hbb]
          simp [List.mem_cons, hb, hbb]

/-- C3: with time-optimization, `BTKeyGen` stores one bootstrapping-key
map entry per gadget base of the parameters' gadget-power map (each the
key the scheme generated under that base) and afterwards the active key
is the map entry for the base that was active when generation started;
without time-optimization on a fresh context (empty key map), exactly one
entry exists — under the active base — and the active key is set to it.
The scheme's key generation is assumed to succeed (`kg b = .ok (kf b)`). -/
theorem btKeyGen_populates_map_and_sets_active :
    (∀ (gp : List Nat) (kg : Nat → Except Unit RingGSWBTKey)
        (kf : Nat → RingGSWBTKey) (s : CtxState),
        (∀ b, kg b = .ok (kf b)) →
        ∃ s', BTKeyGen true gp kg s = .ok s' ∧
          (∀ b ∈ gp, mapFind? s'.btKeyMap b = some (kf b)) ∧
          mapFind? s'.btKeyMap s.baseG = some s'.btKey) ∧
    (∀ (gp : List Nat) (kg : Nat → Except Unit RingGSWBTKey)
        (k : RingGSWBTKey) (s : CtxState),
        s.btKeyMap = [] → kg s.baseG = .ok k →
        ∃ s', BTKeyGen false gp kg s = .ok s' ∧
          s'.btKey = k ∧ s'.btKeyMap = [(s.baseG, k)]) := by
  constructor
  · intro gp kg kf s hkg
    obtain ⟨s1, hrun, hkey, hfind⟩ := btSweep_ok kf kg hkg gp s
    by_cases hlen : s1.btKeyMap.length = 0
    · have hnil : s1.btKeyMap = [] := List.length_eq_zero.mp hlen
      have hgp : ∀ b ∈ gp, False := by
        intro b hb
        have := hfind b
        rw [hnil, if_pos hb] at this
        simp [mapFind?] at this
      refine ⟨{ s1 with
                baseG := s.baseG,
                btKey := kf s.baseG,
                btKeyMap := mapInsert s1.btKeyMap s.baseG (kf s.baseG) },
              ?_, ?_, ?_⟩
      · simp only [BTKeyGen, hrun, hnil]
        simp [hkg s.baseG, mapInsert]
      · intro b hb
        exact absurd (hgp b hb) not_false
      · simp [hnil, mapInsert, mapFind?]
    · cases hf : mapFind? s1.btKeyMap s.baseG with
      | some v =>
        refine ⟨{ s1 with baseG := s.baseG, btKey := v }, ?_, ?_, ?_⟩
        · simp [BTKeyGen, hrun, hlen, hf]
        · intro b hb
          have := hfind b
          rw [if_pos hb] at this
          exact this
        · exact hf
      | none =>
        refine ⟨{ s1 with
                  baseG := s.baseG,
                  btKey := RingGSWBTKey.nullKey,
                  btKeyMap := mapInsert s1.btKeyMap s.baseG
                    RingGSWBTKey.nullKey }, ?_, ?_, ?_⟩
        · simp [BTKeyGen, hrun, hlen, hf]
        · intro b hb
          have hb' := hfind b
          rw [if_pos hb] at hb'
          have hne : b ≠ s.baseG := by
            intro hbe
            rw [hbe, hf] at hb'
            cases hb'
          rw [mapFind?_insert_ne _ _ _ _ hne]
          exact hb'
        · exact mapFind?_insert_self _ _ _
  · intro gp kg k s hmap hkgk
    refine ⟨{ s with
              btKey := k,
              btKeyMap := mapInsert s.btKeyMap s.baseG k }, ?_, rfl, ?_⟩
    · simp only [BTKeyGen, hmap]
      simp [hkgk, hmap]
    · rw [hmap]
      rfl

/-- C3 witness: a fresh context with active base 4 and gadget-power-map
bases `{4, 8}`, with a scheme that generates `genKey b` under base `b`:
after the time-optimized generation both bases have their entry and the
active key is the entry for base 4. -/
theorem btKeyGen_populates_witness :
    ∃ s', BTKeyGen true [4, 8] (fun b => .ok (RingGSWBTKey.genKey b))
        (⟨4, [], RingGSWBTKey.nullKey⟩ : CtxState) = .ok s' ∧
      (∀ b ∈ [4, 8], mapFind? s'.btKeyMap b = some (RingGSWBTKey.genKey b)) ∧
      mapFind? s'.btKeyMap 4 = some s'.btKey :=
  btKeyGen_populates_map_and_sets_active.1 [4, 8]
    (fun b => .ok (RingGSWBTKey.genKey b)) RingGSWBTKey.genKey
    (⟨4, [], RingGSWBTKey.nullKey⟩ : CtxState) (fun _ => rfl)

/-- C4: `BTKeyGen` without time-optimization, on a non-empty key map with
no entry for the active gadget base, generates nothing — the result does
not depend on the scheme's key generation at all — and instead sets the
active key to a freshly inserted default-constructed (null) entry under
the active base, growing the map by exactly that entry. -/
theorem btKeyGen_missing_base_inserts_null (gp gp' : List Nat)
    (kg kg' : Nat → Except Unit RingGSWBTKey) (s : CtxState)
    (hne : s.btKeyMap ≠ []) (hmiss : mapFind? s.btKeyMap s.baseG = none) :
    BTKeyGen false gp kg s = BTKeyGen false gp' kg' s ∧
    BTKeyGen false gp kg s =
      .ok { s with
            btKey := RingGSWBTKey.nullKey,
            btKeyMap := mapInsert s.btKeyMap s.baseG RingGSWBTKey.nullKey } ∧
    (mapInsert s.btKeyMap s.baseG RingGSWBTKey.nullKey).length
      = s.btKeyMap.length + 1 := by
  have hlen : ¬s.btKeyMap.length = 0 :=
    fun h => hne (List.length_eq_zero.mp h)
  refine ⟨?_, ?_, mapInsert_length_new _ _ _ hmiss⟩
  · simp [BTKeyGen, hlen, hmiss]
  · simp [BTKeyGen, hlen, hmiss]

/-- C4 witness: active base 7, key map holding only an entry for base 3:
the call inserts a null entry under 7 and makes it the active key, even
though the scheme's key generation (here: always throwing) is never
consulted. -/
theorem btKeyGen_missing_base_witness :
    BTKeyGen false [] (fun _ => .error ())
        (⟨7, [(3, RingGSWBTKey.genKey 3)], RingGSWBTKey.nullKey⟩ : CtxState)
      = .ok ⟨7, [(3, RingGSWBTKey.genKey 3), (7, RingGSWBTKey.nullKey)],
          RingGSWBTKey.nullKey⟩ :=
  (btKeyGen_missing_base_inserts_null [] [] (fun _ => .error ())
      (fun _ => .error ())
      (⟨7, [(3, RingGSWBTKey.genKey 3)], RingGSWBTKey.nullKey⟩ : CtxState)
      (by decide) rfl).2.1

/-- C5 counterexample: the claim says a failing `BTKeyGen` leaves the key
map and the active gadget base exactly as before the call.  Starting from
active base 32 and an empty map, a time-optimized sweep over bases
`{8, 16}` whose scheme key generation succeeds for 8 and throws for 16
propagates the exception with the map already holding the entry for 8 and
the parameters' gadget base changed to 16 — a different state than before
the call. -/
theorem btKeyGen_timeOpt_midsweep_failure_mutates_state :
    BTKeyGen true [8, 16] kgMid sMid
        = .error ⟨16, [(8, RingGSWBTKey.genKey 8)], RingGSWBTKey.nullKey⟩ ∧
      (⟨16, [(8, RingGSWBTKey.genKey 8)], RingGSWBTKey.nullKey⟩ : CtxState)
        ≠ sMid :=
  ⟨rfl, by decide⟩

/-- C5 amended: `GenerateLUTviaFunction` never touches context state, and
`BTKeyGen` without time-optimization is atomic — it either succeeds or
fails with the context state exactly as before the call; but `BTKeyGen`
with time-optimization is not: a mid-sweep failure can leave map entries
for already-processed bases and a changed active gadget base.  Proved
here: the without-time-optimization atomicity (the with-time-optimization
failure is the counterexample). -/
theorem btKeyGen_noTimeOpt_error_preserves_state (gp : List Nat)
    (kg : Nat → Except Unit RingGSWBTKey) (s : CtxState) :
    (∃ s', BTKeyGen false gp kg s = .ok s') ∨
      BTKeyGen false gp kg s = .error s := by
  by_cases hlen : s.btKeyMap.length = 0
  · cases hk : kg s.baseG with
    | error e =>
      right
      simp [BTKeyGen, hlen, hk]
    | ok k =>
      left
      refine ⟨{ s with
                btKey := k,
                btKeyMap := mapInsert s.btKeyMap s.baseG k }, ?_⟩
      simp [BTKeyGen, hlen, hk]
  · left
    cases hf : mapFind? s.btKeyMap s.baseG with
    | some v =>
      refine ⟨{ s with btKey := v }, ?_⟩
      simp [BTKeyGen, hlen, hf]
    | none =>
      refine ⟨{ s with
                btKey := RingGSWBTKey.nullKey,
                btKeyMap := mapInsert s.btKeyMap s.baseG
                  RingGSWBTKey.nullKey }, ?_⟩
      simp [BTKeyGen, hlen, hf]

theorem isPow2_iff (p : Nat) : isPow2 p = true ↔ ∃ k, p = 2 ^ k := by
  simp only [isPow2, List.any_eq_true, List.mem_range, beq_iff_eq]
  constructor
  · rintro ⟨k, _, hk⟩
    exact ⟨k, hk⟩
  · rintro ⟨k, hk⟩
    refine ⟨k, ?_, hk⟩
    subst hk
    exact Nat.lt_succ_of_lt (Nat.lt_two_pow k)

theorem lutEntries_ok (f : Nat → Nat → Nat) (p interval : Nat) :
    ∀ l : List Nat, (∀ i ∈ l, f (i / interval) p < p) →
      lutEntries f p interval l
        = .ok (l.map fun i => f (i / interval) p * interval) := by
  intro l
  induction l with
  | nil => intro _; rfl
  | cons i rest ih =>
    intro h
    have hi := h i (List.mem_cons_self i rest)
    have hrest := fun j hj => h j (List.mem_cons_of_mem _ hj)
    simp only [lutEntries, if_neg (Nat.not_le.mpr hi), ih hrest, List.map]

theorem lutEntries_error_iff (f : Nat → Nat → Nat) (p interval : Nat) :
    ∀ l : List Nat,
      lutEntries f p interval l = .error .FunctionRangeError
        ↔ ∃ i ∈ l, p ≤ f (i / interval) p := by
  intro l
  induction l with
  | nil => simp [lutEntries]
  | cons i rest ih =>
    by_cases hi : p ≤ f (i / interval) p
    · simp [lutEntries, hi]
    · cases hrec : lutEntries f p interval rest with
      | error e =>
        simp only [lutEntries, if_neg hi, hrec]
        constructor
        · intro h
          have he : e = BinFHEError.FunctionRangeError := by
            injection h
          obtain ⟨j, hj, hle⟩ := ih.mp (he ▸ hrec)
          exact ⟨j, List.mem_cons_of_mem _ hj, hle⟩
        · rintro ⟨j, hj, hle⟩
          rcases List.mem_cons.mp hj with rfl | hj'
          · exact absurd hle hi
          · have hres := ih.mpr ⟨j, hj', hle⟩
            rw [hrec] at hres
            exact hres
      | ok v =>
        simp only [lutEntries, if_neg hi, hrec]
        constructor
        · intro h
          simp at h
        · rintro ⟨j, hj, hle⟩
          rcases List.mem_cons.mp hj with rfl | hj'
          · exact absurd hle hi
          · have hres := ih.mpr ⟨j, hj', hle⟩
            rw [hrec] at hres
            simp at hres

/-- C6: `GenerateLUTviaFunction` fails with `InvalidModulus` exactly when
`p` is not a power of two; for a power-of-two `p` it fails with
`FunctionRangeError` exactly when `f` returns a value `≥ p` at some
sample point `i / (q/p)` with `i < q`, and succeeds otherwise.  The
hypotheses `0 < p ≤ q` delimit the domain on which the embedding is
faithful to the C++ (double-precision `log2` guard, `NativeInteger`
division). -/
theorem generateLUT_error_classification (q p : Nat) (f : Nat → Nat → Nat)
    (hp : 0 < p) (hpq : p ≤ q) :
    ((¬∃ k, p = 2 ^ k) →
        GenerateLUTviaFunction q f p = .error .InvalidModulus) ∧
    ((∃ k, p = 2 ^ k) →
      GenerateLUTviaFunction q f p ≠ .error .InvalidModulus ∧
        (GenerateLUTviaFunction q f p = .error .FunctionRangeError ↔
          ∃ i, i < q ∧ p ≤ f (i / (q / p)) p) ∧
        ((∀ i, i < q → f (i / (q / p)) p < p) →
          ∃ v, GenerateLUTviaFunction q f p = .ok v)) := by
  constructor
  · intro hnp
    have hfalse : isPow2 p = false := by
      rcases Bool.eq_false_or_eq_true (isPow2 p) with h | h
      · exact absurd ((isPow2_iff p).mp h) hnp
      · exact h
    simp [GenerateLUTviaFunction, hfalse]
  · intro hpow
    have hp2 : isPow2 p = true := (isPow2_iff p).mpr hpow
    have hok : ∀ hr : ∀ i, i < q → f (i / (q / p)) p < p,
        GenerateLUTviaFunction q f p
          = .ok ((List.range q).map fun i => f (i / (q / p)) p * (q / p)) := by
      intro hr
      rw [GenerateLUTviaFunction, if_pos hp2,
        lutEntries_ok f p (q / p) (List.range q)
          (fun i hi => hr i (List.mem_range.mp hi))]
    have hiff : GenerateLUTviaFunction q f p = .error .FunctionRangeError ↔
        ∃ i, i < q ∧ p ≤ f (i / (q / p)) p := by
      rw [GenerateLUTviaFunction, if_pos hp2, lutEntries_error_iff]
      simp [List.mem_range]
    refine ⟨?_, hiff, fun hr => ⟨_, hok hr⟩⟩
    by_cases hbad : ∃ i, i < q ∧ p ≤ f (i / (q / p)) p
    · rw [hiff.mpr hbad]
      intro h
      injection h with h
      cases h
    · have hr : ∀ i, i < q → f (i / (q / p)) p < p := by
        intro i hi
        by_contra hcon
        exact hbad ⟨i, hi, Nat.le_of_not_lt hcon⟩
      rw [hok hr]
      intro h
      cases h

/-- C6 witness: `q = 8`, `p = 4`, `f = (· % 4)`: `p` is a power of two
and `f` maps into `Z_4`, so the generation succeeds. -/
theorem generateLUT_error_classification_witness :
    ∃ v, GenerateLUTviaFunction 8 lutF 4 = .ok v :=
  ((generateLUT_error_classification 8 4 lutF (by decide) (by decide)).2
      ⟨2, by decide⟩).2.2 (by decide)

/-- C7: for a power-of-two `p` dividing `q` and an `f` mapping every
sample into `Z_p`, the generated table is exactly the length-`q` list
whose entry at index `i` is `f (i / (q/p)) p * (q/p)` — in particular its
values agree at any two indices of the same `q/p`-wide interval. -/
theorem generateLUT_table_shape (q p : Nat) (f : Nat → Nat → Nat)
    (k : Nat) (hk : p = 2 ^ k) (hdvd : p ∣ q)
    (hrange : ∀ i, i < q → f (i / (q / p)) p < p) :
    GenerateLUTviaFunction q f p
        = .ok ((List.range q).map fun i => f (i / (q / p)) p * (q / p)) ∧
      ((List.range q).map fun i => f (i / (q / p)) p * (q / p)).length
        = q ∧
      ∀ i j, i < q → j < q → i / (q / p) = j / (q / p) →
        ((List.range q).map fun i => f (i / (q / p)) p * (q / p)).get? i
          = ((List.range q).map
              fun i => f (i / (q / p)) p * (q / p)).get? j := by
  have hp2 : isPow2 p = true := (isPow2_iff p).mpr ⟨k, hk⟩
  refine ⟨?_, by simp, ?_⟩
  · rw [GenerateLUTviaFunction, if_pos hp2,
      lutEntries_ok f p (q / p) (List.range q)
        (fun i hi => hrange i (List.mem_range.mp hi))]
  · intro i j hi hj hij
    rw [List.get?_map, List.get?_map, List.get?_range hi,
      List.get?_range hj]
    simp [hij]

/-- C7 witness: the table for `q = 8`, `p = 4`, `f = (· % 4)`. -/
theorem generateLUT_table_shape_witness :
    GenerateLUTviaFunction 8 lutF 4
      = .ok ((List.range 8).map fun i => lutF (i / (8 / 4)) 4 * (8 / 4)) :=
  (generateLUT_table_shape 8 4 lutF 2 (by decide) (by decide)
      (by decide)).1

/-- C10: `EvalNOT` never consults the bootstrapping-key state: two
contexts with the same parameters but arbitrary different active keys and
key maps produce the same result, for every scheme collaborator and
ciphertext. -/
theorem evalNOT_independent_of_btkeys
    (sch : BinFHEParamsE → LWECiphertextE → LWECiphertextE)
    (p : BinFHEParamsE) (k1 k2 : RingGSWBTKey)
    (m1 m2 : List (Nat × RingGSWBTKey)) (ct : LWECiphertextE) :
    EvalNOT sch ⟨p, k1, m1⟩ ct = EvalNOT sch ⟨p, k2, m2⟩ ct :=
  rfl
